import Mathlib

/-!
Shallow embedding of the MOS6502 instruction-level simulator from
src/src/mos6502/mod.rs.

Machine integers are modelled as `Nat` with explicit reduction modulo
2^8 / 2^16 at every point where the Rust code relies on fixed-width
wraparound (the source opts into wraparound semantics, see the
"leave it as u8 to allow overflowing" comments in the resolvers).
The generic address bus is modelled as a plain byte store
`Nat → Nat`; reads are masked to a byte, matching the `u8` return
type of the bus capability, and writes update the store pointwise.
The function-pointer dispatch table is represented as a table of
descriptor tags (an addressing-mode tag, an operation tag and a
mnemonic), with one interpretation function per tag family, exactly
as the design notes of the specification describe the table.
A fatal invalid-opcode decode is modelled with `Except`: the error
value carries the offending opcode byte together with the processor
state at the moment of failure.
-/

/-- Status flag masks, from the constants at the top of the source. -/
def CARRY : Nat := 0x01

def ZERO : Nat := 0x02

def INTERRUPT : Nat := 0x04

def DECIMAL : Nat := 0x08

def BRK : Nat := 0x10

def OVERFLOW : Nat := 0x40

def SIGN : Nat := 0x80

/-- Addressing-mode resolver tags: one per resolver method of the source,
plus the `invalid` fetch used by the unregistered-opcode sentinel. -/
inductive Fetch where
  | implied
  | immediate
  | relative
  | zeropage
  | absolute
  | absolute_x
  | absolute_y
  | zeropage_x
  | indirect_x
  | indirect_y
  | invalid
  deriving DecidableEq

/-- Operation executor tags: one per executor method of the source. -/
inductive Exec where
  | lda
  | tay
  | tax
  | txa
  | tya
  | iny
  | inx
  | ldy
  | stx
  | sty
  | sta
  | ldx
  | and
  | sbc
  | adc
  | jmp
  | sec
  | sei
  | clc
  | cli
  | clv
  | cld
  | sed
  | beq
  | bcs
  | bcc
  | pha
  | pla
  | php
  | plp
  | jsr
  | rts
  | nop
  deriving DecidableEq

/-- Instruction descriptor: resolver, executor and mnemonic (the source's
`OpCode` struct; its `fun` field is called `fn` here since `fun` is a
Lean keyword). -/
structure OpCode where
  fetch : Fetch
  fn : Exec
  name : String
  deriving DecidableEq

/-- The processor state (the source's `MOS6502` struct). -/
structure MOS6502 where
  bus : Nat → Nat
  a : Nat
  x : Nat
  y : Nat
  pc : Nat
  sp : Nat
  status : Nat
  debug : Bool
  debug_line : String
  ticks : Nat
  value : Nat
  addr : Nat
  current_opcode : Nat
  opcode : OpCode
  opcodes : Nat → OpCode

/-- Information carried by a fatal invalid-opcode decode: the offending
opcode byte and the processor state at the moment of failure. -/
structure Fault where
  opcode : Nat
  state : MOS6502

namespace MOS6502

/-- Bus read, masked to one byte (the bus returns a `u8`). -/
def read8 (s : MOS6502) (addr : Nat) : Nat := s.bus addr % 256

/-- Bus write of one byte at one address. -/
def write8 (s : MOS6502) (addr : Nat) (value : Nat) : MOS6502 :=
  { s with bus := fun i => if i = addr then value % 256 else s.bus i }

/-- Return the current `PC` and advance it by one, wrapping at 16 bits. -/
def advance_pc (s : MOS6502) : Nat × MOS6502 :=
  (s.pc, { s with pc := (s.pc + 1) % 65536 })

/-- Read the byte at `PC` and advance `PC` past it. -/
def read8_from_pc (s : MOS6502) : Nat × MOS6502 :=
  let r := advance_pc s
  (read8 r.2 r.1, r.2)

/-- Read a little-endian 16-bit word at `PC` and advance `PC` past it. -/
def read16_from_pc (s : MOS6502) : Nat × MOS6502 :=
  let rl := read8_from_pc s
  let rh := read8_from_pc rl.2
  ((rh.1 <<< 8) ||| rl.1, rh.2)

/-- Uppercase hexadecimal digit. -/
def hexDigit (n : Nat) : Char := Char.ofNat (if n < 10 then 48 + n else 55 + n)

/-- Two-digit uppercase hexadecimal rendering (the `{:02X}` format). -/
def hex2 (n : Nat) : String := String.mk [hexDigit (n / 16 % 16), hexDigit (n % 16)]

/-- Four-digit uppercase hexadecimal rendering (the `{:04X}` format). -/
def hex4 (n : Nat) : String :=
  String.mk [hexDigit (n / 4096 % 16), hexDigit (n / 256 % 16), hexDigit (n / 16 % 16),
    hexDigit (n % 16)]

def get_opcode_name (s : MOS6502) : String := s.opcode.name

/-- Flag read: true when any bit of `flag` is set in `Status`. -/
def get_flag (s : MOS6502) (flag : Nat) : Bool := s.status &&& flag != 0

/-- Flag write: OR the mask in when enabled, AND its 8-bit complement out
when disabled. -/
def set_flag (s : MOS6502) (flag : Nat) (enabled : Bool) : MOS6502 :=
  { s with status := if enabled then s.status ||| flag else s.status &&& (flag ^^^ 255) }

/-! Addressing-mode resolvers. -/

def implied (s : MOS6502) : MOS6502 :=
  { s with ticks := s.ticks + 2,
           debug_line := if s.debug then s.get_opcode_name else s.debug_line }

def immediate (s : MOS6502) : MOS6502 :=
  let r := read8_from_pc s
  let s1 := r.2
  { s1 with value := r.1, ticks := s1.ticks + 2,
            debug_line := if s1.debug then s1.get_opcode_name ++ " #$" ++ hex2 r.1
              else s1.debug_line }

def relative (s : MOS6502) : MOS6502 :=
  let r := read8_from_pc s
  let s1 := r.2
  let offset : Int := if r.1 < 128 then (r.1 : Int) else (r.1 : Int) - 256
  let addr : Nat := (((s1.pc : Int) + offset) % 65536).toNat
  { s1 with addr := addr, ticks := s1.ticks + 2,
            debug_line := if s1.debug then s1.get_opcode_name ++ " $" ++ hex4 addr
              else s1.debug_line }

/-- Note: in the source this resolver assigns the trace line without the
`debug` guard every other resolver has; the assignment is reproduced
unconditionally here. -/
def zeropage (s : MOS6502) : MOS6502 :=
  let r := read8_from_pc s
  let s1 := r.2
  { s1 with addr := r.1, value := read8 s1 r.1, ticks := s1.ticks + 3,
            debug_line := s1.get_opcode_name ++ " $" ++ hex2 r.1 }

def absolute (s : MOS6502) : MOS6502 :=
  let r := read16_from_pc s
  let s1 := r.2
  { s1 with addr := r.1, value := read8 s1 r.1, ticks := s1.ticks + 4,
            debug_line := if s1.debug then s1.get_opcode_name ++ " $" ++ hex4 r.1
              else s1.debug_line }

def absolute_x (s : MOS6502) : MOS6502 :=
  let r := read16_from_pc s
  let s1 := r.2
  let addr_x := (r.1 + s1.x) % 65536
  let boundary := if r.1 >>> 8 ≠ addr_x >>> 8 then 1 else 0
  { s1 with addr := addr_x, value := read8 s1 addr_x, ticks := s1.ticks + 4 + boundary,
            debug_line := if s1.debug then s1.get_opcode_name ++ " $" ++ hex4 addr_x ++ ",X"
              else s1.debug_line }

def absolute_y (s : MOS6502) : MOS6502 :=
  let r := read16_from_pc s
  let s1 := r.2
  let addr_y := (r.1 + s1.y) % 65536
  let boundary := if r.1 >>> 8 ≠ addr_y >>> 8 then 1 else 0
  { s1 with addr := addr_y, value := read8 s1 addr_y, ticks := s1.ticks + 4 + boundary,
            debug_line := if s1.debug then s1.get_opcode_name ++ " $" ++ hex4 addr_y ++ ",Y"
              else s1.debug_line }

def zeropage_x (s : MOS6502) : MOS6502 :=
  let offset := (read8 s s.pc + s.x) % 256
  { s with addr := offset, value := read8 s offset, pc := (s.pc + 1) % 65536,
           ticks := s.ticks + 3,
           debug_line := if s.debug then s.get_opcode_name ++ " $" ++ hex2 offset ++ ",X"
             else s.debug_line }

def indirect_x (s : MOS6502) : MOS6502 :=
  let offset := (read8 s s.pc + s.x) % 256
  let indirect_addr := read8 s offset
  { s with addr := offset, value := read8 s indirect_addr, pc := (s.pc + 1) % 65536,
           ticks := s.ticks + 2,
           debug_line := if s.debug then s.get_opcode_name ++ " ($" ++ hex2 offset ++ ",X)"
             else s.debug_line }

def indirect_y (s : MOS6502) : MOS6502 :=
  let offset := read8 s s.pc
  let indirect_addr := read8 s offset + s.y
  { s with addr := offset, value := read8 s indirect_addr, pc := (s.pc + 1) % 65536,
           ticks := s.ticks + 2 + (if indirect_addr >>> 8 ≠ 0 then 1 else 0),
           debug_line := if s.debug then s.get_opcode_name ++ " ($" ++ hex2 offset ++ "),Y"
             else s.debug_line }

/-! Operation executors. -/

def lda (s : MOS6502) : MOS6502 :=
  let s1 := { s with a := s.value }
  let s2 := set_flag s1 ZERO (decide (s1.a = 0))
  set_flag s2 SIGN (decide (s1.a >>> 7 = 1))

def tay (s : MOS6502) : MOS6502 :=
  let s1 := { s with y := s.a }
  let s2 := set_flag s1 ZERO (decide (s1.y = 0))
  set_flag s2 SIGN (decide (s1.y >>> 7 = 1))

def tax (s : MOS6502) : MOS6502 :=
  let s1 := { s with x := s.a }
  let s2 := set_flag s1 ZERO (decide (s1.x = 0))
  set_flag s2 SIGN (decide (s1.x >>> 7 = 1))

def txa (s : MOS6502) : MOS6502 :=
  let s1 := { s with a := s.x }
  let s2 := set_flag s1 ZERO (decide (s1.a = 0))
  set_flag s2 SIGN (decide (s1.a >>> 7 = 1))

def tya (s : MOS6502) : MOS6502 :=
  let s1 := { s with a := s.y }
  let s2 := set_flag s1 ZERO (decide (s1.a = 0))
  set_flag s2 SIGN (decide (s1.a >>> 7 = 1))

def iny (s : MOS6502) : MOS6502 :=
  let s1 := { s with y := (s.y + 1) % 256 }
  let s2 := set_flag s1 ZERO (decide (s1.y = 0))
  set_flag s2 SIGN (decide (s1.y >>> 7 = 1))

def inx (s : MOS6502) : MOS6502 :=
  let s1 := { s with x := (s.x + 1) % 256 }
  let s2 := set_flag s1 ZERO (decide (s1.x = 0))
  set_flag s2 SIGN (decide (s1.x >>> 7 = 1))

def ldy (s : MOS6502) : MOS6502 :=
  let s1 := { s with y := s.value }
  let s2 := set_flag s1 ZERO (decide (s1.y = 0))
  set_flag s2 SIGN (decide (s1.y >>> 7 = 1))

def stx (s : MOS6502) : MOS6502 := write8 s s.addr s.x

def sty (s : MOS6502) : MOS6502 := write8 s s.addr s.y

def sta (s : MOS6502) : MOS6502 := write8 s s.addr s.a

def ldx (s : MOS6502) : MOS6502 :=
  let s1 := { s with x := s.value }
  let s2 := set_flag s1 ZERO (decide (s1.x = 0))
  set_flag s2 SIGN (decide (s1.x >>> 7 = 1))

def and (s : MOS6502) : MOS6502 :=
  let s1 := { s with a := s.a &&& s.value }
  let s2 := set_flag s1 ZERO (decide (s1.a = 0))
  set_flag s2 SIGN (decide (s1.a >>> 7 = 1))

def sbc (s : MOS6502) : MOS6502 :=
  let carry : Int := if s.get_flag CARRY then 0 else 1
  let orig_a : Int := s.a
  let value : Int := s.value
  let result : Int := orig_a - value - carry
  let s1 := set_flag s CARRY (decide (0 ≤ result ∧ result ≤ 0xff))
  let s2 := { s1 with a := (result % 256).toNat }
  let s3 := set_flag s2 ZERO (decide (s2.a = 0))
  let s4 := set_flag s3 SIGN (decide (s2.a >>> 7 = 1))
  set_flag s4 OVERFLOW (decide ((s.a ^^^ s2.a) &&& (s.value ^^^ s2.a) &&& 0x80 ≠ 0))

def adc (s : MOS6502) : MOS6502 :=
  let carry : Nat := if s.get_flag CARRY then 1 else 0
  let result : Nat := s.a + s.value + carry
  let s1 := set_flag s CARRY (decide (result > 0xff))
  let s2 := { s1 with a := result % 256 }
  let s3 := set_flag s2 ZERO (decide (s2.a = 0))
  let s4 := set_flag s3 SIGN (decide (s2.a >>> 7 = 1))
  set_flag s4 OVERFLOW (decide ((s.a ^^^ s2.a) &&& (s.value ^^^ s2.a) &&& 0x80 ≠ 0))

def jmp (s : MOS6502) : MOS6502 := { s with pc := s.addr }

def sec (s : MOS6502) : MOS6502 := set_flag s CARRY true

def sei (s : MOS6502) : MOS6502 := set_flag s INTERRUPT true

def clc (s : MOS6502) : MOS6502 := set_flag s CARRY false

def cli (s : MOS6502) : MOS6502 := set_flag s INTERRUPT false

def clv (s : MOS6502) : MOS6502 := set_flag s OVERFLOW false

def cld (s : MOS6502) : MOS6502 := set_flag s DECIMAL false

def sed (s : MOS6502) : MOS6502 := set_flag s DECIMAL true

def beq (s : MOS6502) : MOS6502 :=
  { s with pc := if s.get_flag ZERO then s.addr else s.pc,
           ticks := if s.get_flag ZERO then s.ticks + 1 else s.ticks }

def bcs (s : MOS6502) : MOS6502 :=
  { s with pc := if s.get_flag CARRY then s.addr else s.pc,
           ticks := if s.get_flag CARRY then s.ticks + 1 else s.ticks }

def bcc (s : MOS6502) : MOS6502 :=
  { s with pc := if s.get_flag CARRY then s.pc else s.addr,
           ticks := if s.get_flag CARRY then s.ticks else s.ticks + 1 }

def pha (s : MOS6502) : MOS6502 :=
  let s1 := write8 s (0x100 + s.sp) s.a
  { s1 with sp := (s1.sp + 255) % 256, ticks := s1.ticks + 1 }

def pla (s : MOS6502) : MOS6502 :=
  let s1 := { s with sp := (s.sp + 1) % 256 }
  { s1 with a := read8 s1 (0x100 + s1.sp), ticks := s1.ticks + 2 }

def php (s : MOS6502) : MOS6502 :=
  let s1 := write8 s (0x100 + s.sp) s.status
  { s1 with sp := (s1.sp + 255) % 256, ticks := s1.ticks + 1 }

def plp (s : MOS6502) : MOS6502 :=
  let s1 := { s with sp := (s.sp + 1) % 256 }
  { s1 with status := read8 s1 (0x100 + s1.sp), ticks := s1.ticks + 2 }

def jsr (s : MOS6502) : MOS6502 :=
  let sp := 0x100 + s.sp
  let pc := (s.pc + 65535) % 65536
  let s1 := write8 s sp ((pc >>> 8) % 256)
  let s2 := write8 s1 (sp - 1) (pc &&& 0xff)
  { s2 with sp := (s2.sp + 254) % 256, pc := s2.addr, ticks := s2.ticks + 2 }

def rts (s : MOS6502) : MOS6502 :=
  let s1 := { s with sp := (s.sp + 1) % 256 }
  let sp := 0x100 + s1.sp
  let pc_low := read8 s1 sp
  let pc_high := read8 s1 (sp + 1)
  let s2 := { s1 with sp := (s1.sp + 1) % 256 }
  { s2 with pc := (((pc_high <<< 8) ||| pc_low) + 1) % 65536, ticks := s2.ticks + 4 }

def nop (s : MOS6502) : MOS6502 := s

/-! Dispatch. -/

/-- Interpret a resolver tag.  The `invalid` fetch is the fatal
unregistered-opcode path: it fails, carrying the current opcode byte
and the state at the moment of failure. -/
def runFetch : Fetch → MOS6502 → Except Fault MOS6502
  | .implied, s => .ok (implied s)
  | .immediate, s => .ok (immediate s)
  | .relative, s => .ok (relative s)
  | .zeropage, s => .ok (zeropage s)
  | .absolute, s => .ok (absolute s)
  | .absolute_x, s => .ok (absolute_x s)
  | .absolute_y, s => .ok (absolute_y s)
  | .zeropage_x, s => .ok (zeropage_x s)
  | .indirect_x, s => .ok (indirect_x s)
  | .indirect_y, s => .ok (indirect_y s)
  | .invalid, s => .error ⟨s.current_opcode, s⟩

/-- Interpret an executor tag. -/
def runExec : Exec → MOS6502 → MOS6502
  | .lda, s => lda s
  | .tay, s => tay s
  | .tax, s => tax s
  | .txa, s => txa s
  | .tya, s => tya s
  | .iny, s => iny s
  | .inx, s => inx s
  | .ldy, s => ldy s
  | .stx, s => stx s
  | .sty, s => sty s
  | .sta, s => sta s
  | .ldx, s => ldx s
  | .and, s => and s
  | .sbc, s => sbc s
  | .adc, s => adc s
  | .jmp, s => jmp s
  | .sec, s => sec s
  | .sei, s => sei s
  | .clc, s => clc s
  | .cli, s => cli s
  | .clv, s => clv s
  | .cld, s => cld s
  | .sed, s => sed s
  | .beq, s => beq s
  | .bcs, s => bcs s
  | .bcc, s => bcc s
  | .pha, s => pha s
  | .pla, s => pla s
  | .php, s => php s
  | .plp, s => plp s
  | .jsr, s => jsr s
  | .rts, s => rts s
  | .nop, s => nop s

/-- The invalid-opcode sentinel descriptor (the source's `noop` local in
`new`): its fetch is the fatal `invalid` path and its executor is `nop`. -/
def noop : OpCode := ⟨Fetch.invalid, Exec.nop, "-"⟩

/-- Bind one opcode byte to a descriptor; last registration wins. -/
def register_opcode (s : MOS6502) (name : String) (fn : Exec) (code : Nat)
    (fetch : Fetch) : MOS6502 :=
  { s with opcodes := fun i => if i = code then ⟨fetch, fn, name⟩ else s.opcodes i }

/-- Construction: initial register file, all 256 table slots holding the
invalid sentinel, then the source's registrations (ADC in all eight
addressing modes and the seven flag instructions). -/
def new (bus : Nat → Nat) : MOS6502 :=
  let cpu : MOS6502 :=
    { bus := bus, a := 0, x := 0, y := 0, pc := 0, sp := 0xff, value := 0, addr := 0,
      ticks := 0, opcode := noop, current_opcode := 0, debug_line := "",
      opcodes := fun _ => noop, debug := false, status := 0x20 }
  let cpu := register_opcode cpu ("adc") Exec.adc 0x69 Fetch.immediate
  let cpu := register_opcode cpu ("adc") Exec.adc 0x65 Fetch.zeropage
  let cpu := register_opcode cpu ("adc") Exec.adc 0x75 Fetch.zeropage_x
  let cpu := register_opcode cpu ("adc") Exec.adc 0x6d Fetch.absolute
  let cpu := register_opcode cpu ("adc") Exec.adc 0x7d Fetch.absolute_x
  let cpu := register_opcode cpu ("adc") Exec.adc 0x79 Fetch.absolute_y
  let cpu := register_opcode cpu ("adc") Exec.adc 0x61 Fetch.indirect_x
  let cpu := register_opcode cpu ("adc") Exec.adc 0x71 Fetch.indirect_y
  let cpu := register_opcode cpu ("clc") Exec.clc 0x18 Fetch.implied
  let cpu := register_opcode cpu ("sec") Exec.sec 0x38 Fetch.implied
  let cpu := register_opcode cpu ("cli") Exec.cli 0x58 Fetch.implied
  let cpu := register_opcode cpu ("sei") Exec.sei 0x78 Fetch.implied
  let cpu := register_opcode cpu ("clv") Exec.clv 0xb8 Fetch.implied
  let cpu := register_opcode cpu ("cld") Exec.cld 0xd8 Fetch.implied
  let cpu := register_opcode cpu ("sed") Exec.sed 0xf8 Fetch.implied
  cpu

/-- One instruction: fetch the opcode byte at `PC`, advance `PC`, select
the descriptor, run its resolver, then run its executor. -/
def step (s : MOS6502) : Except Fault MOS6502 :=
  let r := read8_from_pc s
  let s2 := { r.2 with current_opcode := r.1, opcode := r.2.opcodes r.1 }
  match runFetch s2.opcode.fetch s2 with
  | .error e => .error e
  | .ok s3 => .ok (runExec s3.opcode.fn s3)

/-- Result state of a step: the stepped state on success, the state at
the moment of failure otherwise. -/
def stepped (s : MOS6502) : MOS6502 :=
  match step s with
  | .ok t => t
  | .error e => e.state

/-- The opcode table built by `new` (it does not depend on the bus). -/
def mos_opcodes : Nat → OpCode := (new (fun _ => 0)).opcodes

/-- Modelled from the spec: the source file registers no opcode bytes
for the JSR and RTS executors (the executor functions exist but no
`register_opcode` call binds them), while the specification's scenarios
execute them through `step()`.  Per the specification's §4.3/§4.4 and
scenario 6, JSR is opcode byte 0x20 with absolute addressing and RTS is
opcode byte 0x60 with implied addressing. -/
def spec_registered (s : MOS6502) : MOS6502 :=
  register_opcode (register_opcode s ("jsr") Exec.jsr 0x20 Fetch.absolute)
    ("rts") Exec.rts 0x60 Fetch.implied

/-- The spec-modelled opcode table: the source's table extended with the
JSR/RTS registrations described by the spec. -/
def spec_opcodes : Nat → OpCode := (spec_registered (new (fun _ => 0))).opcodes

/-- States reachable from the freshly constructed core by successful
`step` calls. -/
inductive Reachable (bus : Nat → Nat) : MOS6502 → Prop where
  | base : Reachable bus (new bus)
  | next {s t : MOS6502} : Reachable bus s → step s = .ok t → Reachable bus t

/-- True for every executor tag that never loads `Status` wholesale
(every executor of the source except `plp`). -/
def exec_keeps_bit5 : Exec → Bool
  | .plp => false
  | _ => true

/-- The little-endian 16-bit operand following the opcode byte, as the
two-byte resolvers assemble it. -/
def operand16 (s : MOS6502) : Nat :=
  (read8 s ((s.pc + 1) % 65536) <<< 8) ||| read8 s s.pc

/-- The per-step scratch update performed by step() before dispatch:
PC advanced past the opcode byte, the fetched byte and its descriptor
latched. -/
def scratch (s : MOS6502) (b : Nat) (oc : OpCode) : MOS6502 :=
  { s with pc := (s.pc + 1) % 65536, current_opcode := b, opcode := oc }

/-- Whether a step succeeds (decodes a registered opcode). -/
def step_ok (s : MOS6502) : Bool :=
  match step s with
  | .ok _ => true
  | .error _ => false

/-- Program fixture for the trace-line check: ADC zeropage (0x65) with
operand 0x05 at address 0, everything else 0. -/
def zp_bug_bus : Nat → Nat := fun a => if a = 0 then 0x65 else if a = 1 then 0x05 else 0

/-- Fresh core over `zp_bug_bus`; `new` leaves the debug flag disabled and
the trace line empty. -/
def zp_bug_state : MOS6502 := new zp_bug_bus

/-- Program fixture for the JSR/RTS scenario: bytes 20 34 12 at 0x0600
(JSR $1234) and 0x60 (RTS) at 0x1234. -/
def jsr_demo_bus : Nat → Nat := fun a =>
  if a = 0x600 then 0x20 else
  if a = 0x601 then 0x34 else
  if a = 0x602 then 0x12 else
  if a = 0x1234 then 0x60 else 0

/-- Spec-modelled core over `jsr_demo_bus` with PC at the JSR instruction
(SP is 0xFF from construction). -/
def jsr_demo_state : MOS6502 := { spec_registered (new jsr_demo_bus) with pc := 0x600 }

/-- The same scenario started with SP = 0x00. -/
def jsr_sp0_state : MOS6502 :=
  { spec_registered (new jsr_demo_bus) with pc := 0x600, sp := 0 }

/-! Basic lemmas. -/

theorem shiftRight8_eq_div (n : Nat) : n >>> 8 = n / 256 := by
  rw [Nat.shiftRight_eq_div_pow]

theorem read8_lt (s : MOS6502) (a : Nat) : read8 s a < 256 :=
  Nat.mod_lt _ (by norm_num)

theorem and_two_pow_ne_zero (x i : Nat) : (x &&& 2 ^ i != 0) = x.testBit i := by
  rcases h : x.testBit i with _ | _ <;> simp [Nat.and_two_pow, h, Nat.pos_iff_ne_zero]

theorem get_flag_carry (s : MOS6502) : s.get_flag CARRY = s.status.testBit 0 := by
  have h := and_two_pow_ne_zero s.status 0
  norm_num at h
  simpa [CARRY, get_flag] using h

theorem get_flag_zero (s : MOS6502) : s.get_flag ZERO = s.status.testBit 1 := by
  have h := and_two_pow_ne_zero s.status 1
  norm_num at h
  simpa [ZERO, get_flag] using h

theorem get_flag_sign (s : MOS6502) : s.get_flag SIGN = s.status.testBit 7 := by
  have h := and_two_pow_ne_zero s.status 7
  norm_num at h
  simpa [SIGN, get_flag] using h

theorem get_flag_overflow (s : MOS6502) : s.get_flag OVERFLOW = s.status.testBit 6 := by
  have h := and_two_pow_ne_zero s.status 6
  norm_num at h
  simpa [OVERFLOW, get_flag] using h

theorem set_flag_testBit_other (s : MOS6502) (f : Nat) (b : Bool) (j : Nat)
    (h1 : Nat.testBit f j = false) (h2 : Nat.testBit (f ^^^ 255) j = true) :
    (set_flag s f b).status.testBit j = s.status.testBit j := by
  cases b <;> simp [set_flag, h1, h2]

theorem set_flag_testBit_self (s : MOS6502) (f : Nat) (b : Bool) (j : Nat)
    (h1 : Nat.testBit f j = true) (h2 : Nat.testBit (f ^^^ 255) j = false) :
    (set_flag s f b).status.testBit j = b := by
  cases b <;> simp [set_flag, h1, h2]

theorem status_update_a (s : MOS6502) (v : Nat) : ({ s with a := v }).status = s.status := rfl

theorem decide_shiftRight7 (n : Nat) (h : n < 256) : decide (n >>> 7 = 1) = n.testBit 7 := by
  rw [Nat.testBit_to_div_mod, Nat.shiftRight_eq_div_pow]
  refine decide_eq_decide.mpr ?_
  have e : (2 : Nat) ^ 7 = 128 := by norm_num
  rw [e]
  omega

/-- C2: every addressing-mode resolver charges exactly the base cycle cost
of the spec's table (implied 2, immediate 2, relative 2, zeropage 3,
zeropage,X 3, absolute 4, absolute,X 4, absolute,Y 4, (indirect,X) 2,
(indirect),Y 2), plus one extra cycle for absolute,X and absolute,Y
exactly when adding the index changes the high byte of the address, and
one extra for (indirect),Y exactly when the high byte of the summed
address is non-zero. -/
theorem addressing_mode_cycle_costs :
    (∀ s : MOS6502, (implied s).ticks = s.ticks + 2) ∧
    (∀ s : MOS6502, (immediate s).ticks = s.ticks + 2) ∧
    (∀ s : MOS6502, (relative s).ticks = s.ticks + 2) ∧
    (∀ s : MOS6502, (zeropage s).ticks = s.ticks + 3) ∧
    (∀ s : MOS6502, (zeropage_x s).ticks = s.ticks + 3) ∧
    (∀ s : MOS6502, (absolute s).ticks = s.ticks + 4) ∧
    (∀ s : MOS6502, (absolute_x s).ticks = s.ticks + 4 +
      (if operand16 s / 256 ≠ (operand16 s + s.x) % 65536 / 256 then 1 else 0)) ∧
    (∀ s : MOS6502, (absolute_y s).ticks = s.ticks + 4 +
      (if operand16 s / 256 ≠ (operand16 s + s.y) % 65536 / 256 then 1 else 0)) ∧
    (∀ s : MOS6502, (indirect_x s).ticks = s.ticks + 2) ∧
    (∀ s : MOS6502, (indirect_y s).ticks = s.ticks + 2 +
      (if (read8 s (read8 s s.pc) + s.y) / 256 ≠ 0 then 1 else 0)) := by
  refine ⟨fun s => rfl, fun s => rfl, fun s => rfl, fun s => rfl, fun s => rfl,
    fun s => rfl, fun s => ?_, fun s => ?_, fun s => rfl, fun s => ?_⟩ <;>
    simp only [absolute_x, absolute_y, indirect_y, operand16, read16_from_pc,
      read8_from_pc, advance_pc, read8, shiftRight8_eq_div]

/-- C8: the (indirect,X) resolver reads the single zero-page byte at
zero-page location (operand + X) mod 256, uses it — zero-extended, with
the high byte left at 0 — as the final effective address, and latches the
value read at that address. -/
theorem indirect_x_single_byte_address (s : MOS6502) :
    (indirect_x s).value = read8 s (read8 s ((read8 s s.pc + s.x) % 256)) ∧
    read8 s ((read8 s s.pc + s.x) % 256) < 256 :=
  ⟨rfl, read8_lt _ _⟩

/-- C1: for every pair of 8-bit operands and every initial Carry state,
ADC sets Carry iff the wide result exceeds 255, SBC sets Carry iff the
wide intermediate result lies within 0..255 inclusive (no borrow), both
narrow A to 8 bits, set Zero and Sign by the shared flag rule, and set
Overflow by the XOR formula ((A_before ^ A_after) & (value ^ A_after) &
0x80) != 0. -/
theorem adc_sbc_flag_rules (s : MOS6502) (_ha : s.a < 256) (_hv : s.value < 256) :
    ((adc s).a = (s.a + s.value + (if s.get_flag CARRY then 1 else 0)) % 256 ∧
     (adc s).get_flag CARRY =
       decide (s.a + s.value + (if s.get_flag CARRY then 1 else 0) > 255) ∧
     (adc s).get_flag ZERO = decide ((adc s).a = 0) ∧
     (adc s).get_flag SIGN = (adc s).a.testBit 7 ∧
     (adc s).get_flag OVERFLOW =
       decide ((s.a ^^^ (adc s).a) &&& (s.value ^^^ (adc s).a) &&& 0x80 ≠ 0)) ∧
    ((sbc s).a =
       (((s.a : Int) - s.value - (if s.get_flag CARRY then 0 else 1)) % 256).toNat ∧
     (sbc s).get_flag CARRY =
       decide (0 ≤ (s.a : Int) - s.value - (if s.get_flag CARRY then 0 else 1) ∧
         (s.a : Int) - s.value - (if s.get_flag CARRY then 0 else 1) ≤ 255) ∧
     (sbc s).get_flag ZERO = decide ((sbc s).a = 0) ∧
     (sbc s).get_flag SIGN = (sbc s).a.testBit 7 ∧
     (sbc s).get_flag OVERFLOW =
       decide ((s.a ^^^ (sbc s).a) &&& (s.value ^^^ (sbc s).a) &&& 0x80 ≠ 0)) := by
  have hadc : (adc s).a < 256 := Nat.mod_lt _ (by norm_num)
  have hsbc : (sbc s).a < 256 := by
    have h0 : ((s.a : Int) - s.value - (if s.get_flag CARRY then 0 else 1)) % 256 < 256 :=
      Int.emod_lt_of_pos _ (by norm_num)
    have : (sbc s).a = (((s.a : Int) - s.value -
        (if s.get_flag CARRY then 0 else 1)) % 256).toNat := rfl
    omega
  refine ⟨⟨rfl, ?_, ?_, ?_, ?_⟩, ⟨rfl, ?_, ?_, ?_, ?_⟩⟩
  · rw [get_flag_carry]
    simp only [adc]
    rw [set_flag_testBit_other _ _ _ _ (by decide) (by decide),
      set_flag_testBit_other _ _ _ _ (by decide) (by decide),
      set_flag_testBit_other _ _ _ _ (by decide) (by decide),
      status_update_a, set_flag_testBit_self _ _ _ _ (by decide) (by decide)]
  · rw [get_flag_zero]
    simp only [adc]
    rw [set_flag_testBit_other _ _ _ _ (by decide) (by decide),
      set_flag_testBit_other _ _ _ _ (by decide) (by decide),
      set_flag_testBit_self _ _ _ _ (by decide) (by decide)]
    rfl
  · rw [get_flag_sign, ← decide_shiftRight7 _ hadc]
    simp only [adc]
    rw [set_flag_testBit_other _ _ _ _ (by decide) (by decide),
      set_flag_testBit_self _ _ _ _ (by decide) (by decide)]
    rfl
  · rw [get_flag_overflow]
    simp only [adc]
    rw [set_flag_testBit_self _ _ _ _ (by decide) (by decide)]
    rfl
  · rw [get_flag_carry]
    simp only [sbc]
    rw [set_flag_testBit_other _ _ _ _ (by decide) (by decide),
      set_flag_testBit_other _ _ _ _ (by decide) (by decide),
      set_flag_testBit_other _ _ _ _ (by decide) (by decide),
      status_update_a, set_flag_testBit_self _ _ _ _ (by decide) (by decide)]
  · rw [get_flag_zero]
    simp only [sbc]
    rw [set_flag_testBit_other _ _ _ _ (by decide) (by decide),
      set_flag_testBit_other _ _ _ _ (by decide) (by decide),
      set_flag_testBit_self _ _ _ _ (by decide) (by decide)]
    rfl
  · rw [get_flag_sign, ← decide_shiftRight7 _ hsbc]
    simp only [sbc]
    rw [set_flag_testBit_other _ _ _ _ (by decide) (by decide),
      set_flag_testBit_self _ _ _ _ (by decide) (by decide)]
    rfl
  · rw [get_flag_overflow]
    simp only [sbc]
    rw [set_flag_testBit_self _ _ _ _ (by decide) (by decide)]
    rfl

/-- Witness for C1 at concrete operand values. -/
theorem adc_sbc_flag_rules_witness :
    (adc { new (fun _ => 0) with a := 0x7f, value := 0x01 }).a = 0x80 ∧
    (adc { new (fun _ => 0) with a := 0x7f, value := 0x01 }).get_flag OVERFLOW = true ∧
    (sbc { new (fun _ => 0) with a := 0x00, value := 0x01 }).get_flag CARRY = false := by
  have h1 := adc_sbc_flag_rules { new (fun _ => 0) with a := 0x7f, value := 0x01 }
    (by norm_num) (by norm_num)
  have h2 := adc_sbc_flag_rules { new (fun _ => 0) with a := 0x00, value := 0x01 }
    (by norm_num) (by norm_num)
  refine ⟨?_, ?_, ?_⟩
  · rw [h1.1.1]; decide
  · rw [h1.1.2.2.2.2]; decide
  · rw [h2.2.2.1]; decide

/-- C3: step() on a byte whose table slot still holds the invalid sentinel
fails fatally instead of returning normally, and the failure carries the
offending opcode byte value. -/
theorem step_unregistered_opcode_fails (s : MOS6502) (b : Nat)
    (hb : read8 s s.pc = b) (hslot : s.opcodes b = noop) :
    ∃ e, step s = .error e ∧ e.opcode = b := by
  have hb2 : s.bus s.pc % 256 = b := hb
  refine ⟨⟨b, { s with pc := (s.pc + 1) % 65536, current_opcode := b,
                       opcode := noop }⟩, ?_, rfl⟩
  simp only [step, read8_from_pc, advance_pc, read8, hb2, hslot, noop, runFetch]

/-- Witness for C3: a fresh core reading opcode byte 0x00, which the
source never registers. -/
theorem step_unregistered_opcode_fails_witness :
    ∃ e, step (new (fun _ => 0)) = .error e ∧ e.opcode = 0 :=
  step_unregistered_opcode_fails (new (fun _ => 0)) 0 rfl rfl

/-- C10: when step() fetches an unregistered opcode byte the failure
happens in the fetch phase: at the moment of failure no cycle has been
charged and no register, flag or memory cell has changed; only PC has
advanced past the opcode byte and the transient opcode scratch fields
have been overwritten. -/
theorem step_invalid_fetch_frame (s : MOS6502) (b : Nat)
    (hb : read8 s s.pc = b) (hslot : s.opcodes b = noop) :
    ∃ e, step s = .error e ∧ e.opcode = b ∧
      e.state.a = s.a ∧ e.state.x = s.x ∧ e.state.y = s.y ∧ e.state.sp = s.sp ∧
      e.state.status = s.status ∧ e.state.ticks = s.ticks ∧ e.state.bus = s.bus ∧
      e.state.debug_line = s.debug_line ∧ e.state.value = s.value ∧
      e.state.addr = s.addr ∧ e.state.pc = (s.pc + 1) % 65536 ∧
      e.state.current_opcode = b := by
  have hb2 : s.bus s.pc % 256 = b := hb
  refine ⟨⟨b, { s with pc := (s.pc + 1) % 65536, current_opcode := b,
                       opcode := noop }⟩, ?_, rfl, rfl, rfl, rfl, rfl, rfl, rfl,
    rfl, rfl, rfl, rfl, rfl, rfl⟩
  simp only [step, read8_from_pc, advance_pc, read8, hb2, hslot, noop, runFetch]

/-- Witness for C10: a fresh core reading the unregistered opcode 0xFF. -/
theorem step_invalid_fetch_frame_witness :
    ∃ e, step (new (fun _ => 0xff)) = .error e ∧ e.opcode = 0xff ∧
      e.state.a = (new (fun _ => 0xff)).a ∧ e.state.x = (new (fun _ => 0xff)).x ∧
      e.state.y = (new (fun _ => 0xff)).y ∧ e.state.sp = (new (fun _ => 0xff)).sp ∧
      e.state.status = (new (fun _ => 0xff)).status ∧
      e.state.ticks = (new (fun _ => 0xff)).ticks ∧
      e.state.bus = (new (fun _ => 0xff)).bus ∧
      e.state.debug_line = (new (fun _ => 0xff)).debug_line ∧
      e.state.value = (new (fun _ => 0xff)).value ∧
      e.state.addr = (new (fun _ => 0xff)).addr ∧
      e.state.pc = ((new (fun _ => 0xff)).pc + 1) % 65536 ∧
      e.state.current_opcode = 0xff :=
  step_invalid_fetch_frame (new (fun _ => 0xff)) 0xff rfl rfl

/-- C5: register arithmetic wraps modulo its width: a push with SP = 0x00
wraps SP to 0xFF, a pull with SP = 0xFF wraps SP to 0x00, the zeropage,X
effective address is (operand + X) mod 256, advancing PC past 0xFFFF
wraps it to 0x0000, and every addressing-mode resolver other than the
invalid-opcode sentinel succeeds on every state. -/
theorem operations_total_and_wrap :
    (∀ s : MOS6502, s.sp = 0x00 → (pha s).sp = 0xff ∧ (php s).sp = 0xff) ∧
    (∀ s : MOS6502, s.sp = 0xff → (pla s).sp = 0x00 ∧ (plp s).sp = 0x00) ∧
    (∀ s : MOS6502, (zeropage_x s).addr = (read8 s s.pc + s.x) % 256) ∧
    (∀ s : MOS6502, s.pc = 0xffff → (advance_pc s).2.pc = 0x0000) ∧
    (∀ f : Fetch, f ≠ Fetch.invalid → ∀ s : MOS6502, ∃ t, runFetch f s = .ok t) := by
  refine ⟨fun s h => ?_, fun s h => ?_, fun s => rfl, fun s h => ?_, fun f hf s => ?_⟩
  · constructor <;> simp [pha, php, write8, h]
  · constructor <;> simp [pla, plp, h]
  · simp [advance_pc, h]
  · cases f <;> first
      | exact ⟨_, rfl⟩
      | exact absurd rfl hf

/-- Witness for C5 at concrete states. -/
theorem operations_total_and_wrap_witness :
    (pha { new (fun _ => 0) with sp := 0 }).sp = 0xff ∧
    (pla { new (fun _ => 0) with sp := 0xff }).sp = 0 ∧
    ∃ t, runFetch Fetch.implied (new (fun _ => 0)) = .ok t :=
  ⟨(operations_total_and_wrap.1 _ rfl).1,
   (operations_total_and_wrap.2.1 _ rfl).1,
   operations_total_and_wrap.2.2.2.2 Fetch.implied (by decide) _⟩

/-- C9 (code bug in the zeropage resolver): with the debug flag disabled,
stepping an ADC zeropage instruction still overwrites the trace line,
because the source's zeropage resolver assigns the trace string without
the debug guard that every other resolver has. -/
theorem zeropage_debug_line_bug :
    zp_bug_state.debug = false ∧ zp_bug_state.debug_line = "" ∧
    (stepped zp_bug_state).debug_line = "adc $05" := by
  refine ⟨rfl, rfl, ?_⟩
  rfl

theorem new_opcodes_eq (bus : Nat → Nat) : (new bus).opcodes = mos_opcodes := rfl

theorem runFetch_frame (f : Fetch) (s t : MOS6502) (h : runFetch f s = .ok t) :
    t.status = s.status ∧ t.opcodes = s.opcodes ∧ t.opcode = s.opcode := by
  cases f <;> simp only [runFetch] at h
  case invalid => exact Except.noConfusion h
  all_goals injection h with h
  all_goals subst h
  all_goals exact ⟨rfl, rfl, rfl⟩

theorem runExec_opcodes (e : Exec) (s : MOS6502) : (runExec e s).opcodes = s.opcodes := by
  cases e <;> rfl

theorem keep5 (s : MOS6502) (f : Nat) (b : Bool)
    (h1 : Nat.testBit f 5 = false) (h2 : Nat.testBit (f ^^^ 255) 5 = true)
    (h : s.status.testBit 5 = true) : (set_flag s f b).status.testBit 5 = true := by
  rw [set_flag_testBit_other _ _ _ _ h1 h2]
  exact h

theorem runExec_keeps_bit5 (e : Exec) (he : exec_keeps_bit5 e = true) (s : MOS6502)
    (h : s.status.testBit 5 = true) : (runExec e s).status.testBit 5 = true := by
  cases e
  case plp => simp [exec_keeps_bit5] at he
  case stx => exact h
  case sty => exact h
  case sta => exact h
  case jmp => exact h
  case beq => exact h
  case bcs => exact h
  case bcc => exact h
  case pha => exact h
  case pla => exact h
  case php => exact h
  case jsr => exact h
  case rts => exact h
  case nop => exact h
  case sec => exact keep5 _ _ _ (by decide) (by decide) h
  case sei => exact keep5 _ _ _ (by decide) (by decide) h
  case clc => exact keep5 _ _ _ (by decide) (by decide) h
  case cli => exact keep5 _ _ _ (by decide) (by decide) h
  case clv => exact keep5 _ _ _ (by decide) (by decide) h
  case cld => exact keep5 _ _ _ (by decide) (by decide) h
  case sed => exact keep5 _ _ _ (by decide) (by decide) h
  case lda => exact keep5 _ _ _ (by decide) (by decide) (keep5 _ _ _ (by decide) (by decide) h)
  case tay => exact keep5 _ _ _ (by decide) (by decide) (keep5 _ _ _ (by decide) (by decide) h)
  case tax => exact keep5 _ _ _ (by decide) (by decide) (keep5 _ _ _ (by decide) (by decide) h)
  case txa => exact keep5 _ _ _ (by decide) (by decide) (keep5 _ _ _ (by decide) (by decide) h)
  case tya => exact keep5 _ _ _ (by decide) (by decide) (keep5 _ _ _ (by decide) (by decide) h)
  case iny => exact keep5 _ _ _ (by decide) (by decide) (keep5 _ _ _ (by decide) (by decide) h)
  case inx => exact keep5 _ _ _ (by decide) (by decide) (keep5 _ _ _ (by decide) (by decide) h)
  case ldy => exact keep5 _ _ _ (by decide) (by decide) (keep5 _ _ _ (by decide) (by decide) h)
  case ldx => exact keep5 _ _ _ (by decide) (by decide) (keep5 _ _ _ (by decide) (by decide) h)
  case and => exact keep5 _ _ _ (by decide) (by decide) (keep5 _ _ _ (by decide) (by decide) h)
  case adc => exact keep5 _ _ _ (by decide) (by decide) (keep5 _ _ _ (by decide) (by decide)
      (keep5 _ _ _ (by decide) (by decide) (keep5 _ _ _ (by decide) (by decide) h)))
  case sbc => exact keep5 _ _ _ (by decide) (by decide) (keep5 _ _ _ (by decide) (by decide)
      (keep5 _ _ _ (by decide) (by decide) (keep5 _ _ _ (by decide) (by decide) h)))

set_option maxRecDepth 8192 in
theorem mos_opcodes_keep_bit5 :
    ∀ b : Nat, b < 256 → exec_keeps_bit5 ((mos_opcodes b).fn) = true := by decide

theorem step_keeps_bit5 (s t : MOS6502) (htab : s.opcodes = mos_opcodes)
    (hbit : s.status.testBit 5 = true) (h : step s = .ok t) :
    t.status.testBit 5 = true ∧ t.opcodes = mos_opcodes := by
  simp only [step] at h
  rcases hr : runFetch ({ (read8_from_pc s).2 with
      current_opcode := (read8_from_pc s).1,
      opcode := (read8_from_pc s).2.opcodes (read8_from_pc s).1 } : MOS6502).opcode.fetch
    { (read8_from_pc s).2 with
      current_opcode := (read8_from_pc s).1,
      opcode := (read8_from_pc s).2.opcodes (read8_from_pc s).1 } with e | s3
  · rw [hr] at h
    exact Except.noConfusion h
  · rw [hr] at h
    injection h with h
    subst h
    obtain ⟨hst, hop, hoc⟩ := runFetch_frame _ _ _ hr
    have hops2 : ({ (read8_from_pc s).2 with
        current_opcode := (read8_from_pc s).1,
        opcode := (read8_from_pc s).2.opcodes (read8_from_pc s).1 } : MOS6502).opcodes =
        mos_opcodes := htab
    have hocv : ({ (read8_from_pc s).2 with
        current_opcode := (read8_from_pc s).1,
        opcode := (read8_from_pc s).2.opcodes (read8_from_pc s).1 } : MOS6502).opcode =
        mos_opcodes (read8_from_pc s).1 := by
      show s.opcodes (read8_from_pc s).1 = mos_opcodes (read8_from_pc s).1
      rw [htab]
    have hlt : (read8_from_pc s).1 < 256 := by
      have : (read8_from_pc s).1 = read8 (advance_pc s).2 (advance_pc s).1 := rfl
      rw [this]
      exact read8_lt _ _
    have hkeep : exec_keeps_bit5 (s3.opcode.fn) = true := by
      rw [hoc, hocv]
      exact mos_opcodes_keep_bit5 _ hlt
    have hbit3 : s3.status.testBit 5 = true := by
      rw [hst]
      exact hbit
    refine ⟨runExec_keeps_bit5 _ hkeep _ hbit3, ?_⟩
    rw [runExec_opcodes, hop, hops2]

/-- C4: bit 5 (0x20) of the Status register is 1 in the initial state and
in every state reachable from it by step() calls: no reachable operation
of the core ever clears it. -/
theorem status_bit5_invariant (bus : Nat → Nat) (s : MOS6502)
    (h : Reachable bus s) : s.status.testBit 5 = true := by
  have main : s.status.testBit 5 = true ∧ s.opcodes = mos_opcodes := by
    induction h with
    | base => exact ⟨(by decide : Nat.testBit 32 5 = true), new_opcodes_eq bus⟩
    | next hr hstep ih => exact step_keeps_bit5 _ _ ih.2 ih.1 hstep
  exact main.1

/-- Witness for C4 at the initial state of a fresh core. -/
theorem status_bit5_invariant_witness :
    (new (fun _ => 0)).status.testBit 5 = true :=
  status_bit5_invariant (fun _ => 0) (new (fun _ => 0)) Reachable.base

theorem spec_opcodes_jsr : spec_opcodes 0x20 = ⟨Fetch.absolute, Exec.jsr, "jsr"⟩ := rfl

theorem spec_opcodes_rts : spec_opcodes 0x60 = ⟨Fetch.implied, Exec.rts, "rts"⟩ := rfl

theorem absolute_opcode (s : MOS6502) : (absolute s).opcode = s.opcode := rfl

theorem implied_opcode (s : MOS6502) : (implied s).opcode = s.opcode := rfl

theorem stepped_of_ok {s t : MOS6502} (h : step s = .ok t) : stepped s = t := by
  simp only [stepped, h]

theorem or256_eq_add (a b : Nat) (hb : b < 256) : 256 * a ||| b = 256 * a + b := by
  have e2 : (256 : Nat) = 2 ^ 8 := by norm_num
  rw [e2]
  exact (Nat.mul_add_lt_is_or (e2 ▸ hb) a).symm

theorem push_pull_pc (p : Nat) (hp : p < 65536) :
    ((((p >>> 8) % 256) <<< 8 ||| p &&& 255) + 1) % 65536 = (p + 1) % 65536 := by
  have h1 : p >>> 8 = p / 256 := shiftRight8_eq_div p
  have h2 : p &&& 255 = p % 256 := by
    have e : (255 : Nat) = 2 ^ 8 - 1 := by norm_num
    rw [e, Nat.and_pow_two_sub_one_eq_mod]
  have h3 : p / 256 < 256 := by omega
  rw [h1, Nat.mod_eq_of_lt h3, h2, Nat.shiftLeft_eq]
  have e2 : (2 : Nat) ^ 8 = 256 := by norm_num
  rw [e2, Nat.mul_comm, or256_eq_add _ _ (by omega), Nat.div_add_mod]

/-- After a JSR from state `A`, any state `B` sharing the JSR's bus and
stack pointer (the RTS fetch only moves PC and charges cycles) returns by
RTS to `A`'s PC and restores `A`'s SP, provided SP was non-zero. -/
theorem rts_after_jsr (A B : MOS6502) (hsp : A.sp < 256) (hsp0 : A.sp ≠ 0)
    (hpc : A.pc < 65536) (hbus : B.bus = (jsr A).bus) (hbsp : B.sp = (jsr A).sp) :
    (rts B).sp = A.sp ∧ (rts B).pc = A.pc := by
  have esp : (jsr A).sp = (A.sp + 254) % 256 := rfl
  constructor
  · have e : (rts B).sp = ((B.sp + 1) % 256 + 1) % 256 := rfl
    rw [e, hbsp, esp]
    omega
  · have e0 : (rts B).pc = (((B.bus (0x100 + (B.sp + 1) % 256 + 1) % 256) <<< 8 |||
        B.bus (0x100 + (B.sp + 1) % 256) % 256) + 1) % 65536 := rfl
    rw [e0, hbus, hbsp, esp]
    have ha_low : (0x100 : Nat) + ((A.sp + 254) % 256 + 1) % 256 = 0x100 + A.sp - 1 := by
      omega
    rw [ha_low, (by omega : (0x100 : Nat) + A.sp - 1 + 1 = 0x100 + A.sp)]
    have hread : ∀ i, (jsr A).bus i =
        if i = 0x100 + A.sp - 1 then (((A.pc + 65535) % 65536) &&& 255) % 256
        else if i = 0x100 + A.sp then ((((A.pc + 65535) % 65536) >>> 8) % 256) % 256
        else A.bus i := fun _ => rfl
    rw [hread, hread, if_pos rfl, if_neg (by omega), if_pos rfl]
    have hcol : ∀ a : Nat, a % 256 % 256 = a % 256 := fun a =>
      Nat.mod_mod_of_dvd a dvd_rfl
    have hlow2 : (((A.pc + 65535) % 65536) &&& 255) % 256 % 256 =
        ((A.pc + 65535) % 65536) &&& 255 := by
      have hle : ((A.pc + 65535) % 65536) &&& 255 ≤ 255 := Nat.and_le_right
      omega
    rw [hcol, hcol, hlow2]
    rw [push_pull_pc _ (Nat.mod_lt _ (by norm_num))]
    omega

/-- C6 (amended): over the spec-modelled table (the source registers no
opcode for JSR/RTS), for every starting PC and memory contents and every
non-zero SP, a JSR step followed by an RTS step leaves PC at the address
just after the JSR opcode and its two operand bytes, and restores SP.
With SP = 0x00 the push escapes the stack page and PC is not restored. -/
theorem jsr_rts_roundtrip (s : MOS6502)
    (htab : s.opcodes = spec_opcodes)
    (hsp : s.sp < 256) (hsp0 : s.sp ≠ 0)
    (hjsr : read8 s s.pc = 0x20)
    (hrts : read8 (stepped s) (stepped s).pc = 0x60) :
    step s = .ok (stepped s) ∧ step (stepped s) = .ok (stepped (stepped s)) ∧
    (stepped (stepped s)).pc = (s.pc + 3) % 65536 ∧
    (stepped (stepped s)).sp = s.sp := by
  have hb : s.bus s.pc % 256 = 0x20 := hjsr
  have h1 : step s =
      .ok (jsr (absolute (scratch s 0x20 ⟨Fetch.absolute, Exec.jsr, "jsr"⟩))) := by
    simp only [step, scratch, read8_from_pc, advance_pc, read8, hb, htab,
      spec_opcodes_jsr, runFetch, absolute_opcode, runExec]
  have hs1 := stepped_of_ok h1
  have hb2 : (stepped s).bus (stepped s).pc % 256 = 0x60 := hrts
  have hops : (stepped s).opcodes = spec_opcodes := by
    rw [hs1]
    exact htab
  have h2 : step (stepped s) = .ok (rts (implied
      (scratch (stepped s) 0x60 ⟨Fetch.implied, Exec.rts, "rts"⟩))) := by
    simp only [step, scratch, read8_from_pc, advance_pc, read8, hb2, hops,
      spec_opcodes_rts, runFetch, implied_opcode, runExec]
  have hs2 := stepped_of_ok h2
  have hA_sp : (absolute (scratch s 0x20 ⟨Fetch.absolute, Exec.jsr, "jsr"⟩)).sp < 256 := hsp
  have hA_sp0 : (absolute (scratch s 0x20 ⟨Fetch.absolute, Exec.jsr, "jsr"⟩)).sp ≠ 0 := hsp0
  have hA_pc : (absolute (scratch s 0x20 ⟨Fetch.absolute, Exec.jsr, "jsr"⟩)).pc < 65536 := by
    show (((s.pc + 1) % 65536 + 1) % 65536 + 1) % 65536 < 65536
    exact Nat.mod_lt _ (by norm_num)
  have hB_bus : (implied (scratch (stepped s) 0x60 ⟨Fetch.implied, Exec.rts, "rts"⟩)).bus =
      (jsr (absolute (scratch s 0x20 ⟨Fetch.absolute, Exec.jsr, "jsr"⟩))).bus := by
    show (stepped s).bus = _
    rw [hs1]
  have hB_sp : (implied (scratch (stepped s) 0x60 ⟨Fetch.implied, Exec.rts, "rts"⟩)).sp =
      (jsr (absolute (scratch s 0x20 ⟨Fetch.absolute, Exec.jsr, "jsr"⟩))).sp := by
    show (stepped s).sp = _
    rw [hs1]
  obtain ⟨hsp_eq, hpc_eq⟩ := rts_after_jsr _ _ hA_sp hA_sp0 hA_pc hB_bus hB_sp
  refine ⟨h1.trans (by rw [hs1]), h2.trans (by rw [hs2]), ?_, ?_⟩
  · rw [hs2, hpc_eq]
    show (((s.pc + 1) % 65536 + 1) % 65536 + 1) % 65536 = (s.pc + 3) % 65536
    omega
  · rw [hs2, hsp_eq]
    rfl

/-- Witness for C6 at the concrete JSR $1234 scenario (SP = 0xFF). -/
theorem jsr_rts_roundtrip_witness :
    (stepped (stepped jsr_demo_state)).pc = (jsr_demo_state.pc + 3) % 65536 ∧
    (stepped (stepped jsr_demo_state)).sp = jsr_demo_state.sp :=
  ⟨(jsr_rts_roundtrip jsr_demo_state rfl (by decide) (by decide) (by decide)
      (by decide)).2.2.1,
   (jsr_rts_roundtrip jsr_demo_state rfl (by decide) (by decide) (by decide)
      (by decide)).2.2.2⟩

/-- Counterexample to C6 as stated: from SP = 0x00 the JSR push escapes
the stack page (high byte to 0x0100, low byte to 0x00FF), so the
following RTS reads 0x01FF/0x0200 and does not restore PC to the address
after the JSR, although SP is restored. -/
theorem jsr_rts_sp0_counterexample :
    jsr_sp0_state.sp = 0 ∧
    read8 jsr_sp0_state jsr_sp0_state.pc = 0x20 ∧
    step_ok jsr_sp0_state = true ∧
    read8 (stepped jsr_sp0_state) (stepped jsr_sp0_state).pc = 0x60 ∧
    step_ok (stepped jsr_sp0_state) = true ∧
    (stepped (stepped jsr_sp0_state)).sp = jsr_sp0_state.sp ∧
    (stepped (stepped jsr_sp0_state)).pc = 0x0001 ∧
    (jsr_sp0_state.pc + 3) % 65536 = 0x0603 ∧
    ¬(stepped (stepped jsr_sp0_state)).pc = (jsr_sp0_state.pc + 3) % 65536 := by
  refine ⟨rfl, rfl, rfl, rfl, rfl, rfl, rfl, rfl, ?_⟩
  decide

/-- Counterexample to C7 as stated: after the JSR step the byte at 0x01FF
is the high byte 0x06 and the byte at 0x01FE is the low byte 0x02 — the
opposite of the claimed 0x02 at 0x01FF / 0x06 at 0x01FE. -/
theorem jsr_stack_bytes_counterexample :
    step_ok jsr_demo_state = true ∧
    read8 (stepped jsr_demo_state) 0x1ff = 0x06 ∧
    read8 (stepped jsr_demo_state) 0x1fe = 0x02 ∧
    ¬(read8 (stepped jsr_demo_state) 0x1ff = 0x02 ∧
      read8 (stepped jsr_demo_state) 0x1fe = 0x06) := by
  refine ⟨rfl, rfl, rfl, ?_⟩
  decide

/-- C7 (amended): with the spec-modelled JSR/RTS registrations, PC =
0x0600, SP = 0xFF and program bytes 20 34 12: after one step() PC =
0x1234, memory 0x01FF holds 0x06 (the high byte of 0x0602), 0x01FE holds
0x02 (the low byte), SP has decreased by 2, and a subsequent RTS step
sets PC = 0x0603. -/
theorem jsr_concrete_scenario :
    jsr_demo_state.pc = 0x600 ∧ jsr_demo_state.sp = 0xff ∧
    step_ok jsr_demo_state = true ∧
    (stepped jsr_demo_state).pc = 0x1234 ∧
    read8 (stepped jsr_demo_state) 0x1ff = 0x06 ∧
    read8 (stepped jsr_demo_state) 0x1fe = 0x02 ∧
    (stepped jsr_demo_state).sp = 0xfd ∧
    step_ok (stepped jsr_demo_state) = true ∧
    (stepped (stepped jsr_demo_state)).pc = 0x0603 :=
  ⟨rfl, rfl, rfl, rfl, rfl, rfl, rfl, rfl, rfl⟩

end MOS6502
